import Mathlib

/-!
Verification development for the rule-driven structural pattern matcher,
intraprocedural taint engine and fixture-verification harness described in
the repository's specification.  The repository itself ships the annotated
fixture corpus (the engine's test data); the engine components below are
modelled from the specification's component contracts (sections 3, 4, 6, 7)
and the claims are settled against those models.
-/

namespace BountyHunter

/-- Modelled from the spec: kind tag of an AST element (call, assignment,
identifier, literal, attribute-access, comparison, function-definition). -/
inductive NodeKind where
  | call
  | assignment
  | identifier
  | literal
  | attributeAccess
  | comparison
  | functionDef
  deriving DecidableEq, Repr

/-- Modelled from the spec: a source span.  The spec's (file, line, column
range) is abstracted to a start/end offset interval within one fixture file. -/
structure Span where
  lo : Nat
  hi : Nat
  deriving DecidableEq, Repr

/-- Modelled from the spec: one AST element, with a kind tag, an optional
literal/identifier payload, an ordered sequence of children and a source
span; immutable after construction. -/
inductive Node where
  | mk (kind : NodeKind) (payload : Option String) (children : List Node) (span : Span)
  deriving Repr

mutual

/-- Decidable structural equality of AST nodes (structural identity of the
whole subtree, the relation repeated metavariables are compared by). -/
def Node.decEq : (a b : Node) → Decidable (a = b)
  | .mk k p c s, .mk k' p' c' s' =>
    if hk : k = k' then
      if hp : p = p' then
        if hs : s = s' then
          match Node.decEqList c c' with
          | isTrue hc => isTrue (by rw [hk, hp, hc, hs])
          | isFalse hc => isFalse (fun h => hc (by injection h))
        else isFalse (fun h => hs (by injection h))
      else isFalse (fun h => hp (by injection h))
    else isFalse (fun h => hk (by injection h))

/-- Decidable structural equality of node lists. -/
def Node.decEqList : (a b : List Node) → Decidable (a = b)
  | [], [] => isTrue rfl
  | [], _ :: _ => isFalse (fun h => by simp at h)
  | _ :: _, [] => isFalse (fun h => by simp at h)
  | a :: as, b :: bs =>
    match Node.decEq a b, Node.decEqList as bs with
    | isTrue h1, isTrue h2 => isTrue (by rw [h1, h2])
    | isFalse h1, _ => isFalse (fun h => h1 (by injection h))
    | isTrue _, isFalse h2 => isFalse (fun h => h2 (by injection h))

end

instance : DecidableEq Node := Node.decEq

/-- Modelled from the spec: the closed set of pattern-expression variants a
compiled rule's structural pattern is made of — a literal code shape, a
metavariable binder, ordered alternation, a negative filter and an
enclosing-shape requirement (design notes, section 9). -/
inductive Pattern where
  | lit (kind : NodeKind) (payload : Option String) (children : List Pattern)
  | metavar (name : String)
  | either (alts : List Pattern)
  | pnot (inner : Pattern)
  | inside (outer : Pattern) (inner : Pattern)
  deriving Repr

/-- Modelled from the spec: a Binding maps metavariable names to the node
each one matched; scoped to one match attempt. -/
abbrev Binding := List (String × Node)

/-- First binding recorded for a metavariable name, if any. -/
def Binding.lookupVar : Binding → String → Option Node
  | [], _ => none
  | (x, n) :: rest, y => if x = y then some n else Binding.lookupVar rest y

mutual

/-- Modelled from the spec: recursive structural unification of a pattern
against an AST node under an ancestor context.  A literal shape requires the
kinds and payloads to agree and every pattern child to unify with the
corresponding concrete child in order; a metavariable binds to the concrete
subtree, a later occurrence of the same metavariable requiring structural
equality with its first binding; alternation tries alternatives left to
right; a negative pattern prunes an otherwise-matching node; an enclosing
requirement walks the ancestor nodes for a match of the outer shape. -/
def matchPattern (anc : List Node) : Pattern → Node → Binding → Option Binding
  | .lit k p cs, .mk k' p' cs' _, b =>
    if k = k' ∧ p = p' then matchChildren anc cs cs' b else none
  | .metavar x, n, b =>
    match Binding.lookupVar b x with
    | none => some ((x, n) :: b)
    | some m => if m = n then some b else none
  | .either alts, n, b => matchFirst anc alts n b
  | .pnot inner, n, b =>
    match matchPattern anc inner n b with
    | some _ => none
    | none => some b
  | .inside outer inner, n, b =>
    match matchPattern anc inner n b with
    | some b' =>
      if anc.any (fun a => (matchPattern anc outer a b').isSome) then some b' else none
    | none => none

/-- Unify a list of pattern children against a list of concrete children, in
order, threading the binding. -/
def matchChildren (anc : List Node) : List Pattern → List Node → Binding → Option Binding
  | [], [], b => some b
  | p :: ps, n :: ns, b =>
    match matchPattern anc p n b with
    | some b' => matchChildren anc ps ns b'
    | none => none
  | _, _, _ => none

/-- Try alternatives left to right and return the first success (the order
defines the deterministic tie-break). -/
def matchFirst (anc : List Node) : List Pattern → Node → Binding → Option Binding
  | [], _, _ => none
  | p :: ps, n, b =>
    match matchPattern anc p n b with
    | some b' => some b'
    | none => matchFirst anc ps n b

end

mutual

/-- Metavariable names introduced anywhere in a pattern. -/
def patVars : Pattern → List String
  | .lit _ _ cs => patVarsList cs
  | .metavar x => [x]
  | .either alts => patVarsList alts
  | .pnot inner => patVars inner
  | .inside outer inner => patVars outer ++ patVars inner

/-- Metavariable names introduced in a list of patterns. -/
def patVarsList : List Pattern → List String
  | [] => []
  | p :: ps => patVars p ++ patVarsList ps

end

/-- Modelled from the spec: expressions a statement's right-hand side is
built from — identifiers, string literals, calls (the call head rendered as
a dotted name, with a source span), string concatenation, formatted-string
construction and attribute access. -/
inductive Expr where
  | ident (name : String)
  | strLit (s : String)
  | call (fn : String) (args : List Expr) (sp : Span)
  | concat (a : Expr) (b : Expr)
  | fstring (parts : List Expr)
  | attr (base : Expr) (field : String)
  deriving Repr

/-- Modelled from the spec: one structural pattern of a taint rule's sink
set — the sink call head and the first argument position the sink's tainted-
value metavariable ranges over (the "second argument absolute" path-join
variant uses position one, so only later arguments are matched). -/
structure SinkSpec where
  fn : String
  minArg : Nat
  deriving DecidableEq, Repr

/-- Modelled from the spec: a taint rule's specification — the named pattern
sets of sources, sanitizers and sinks, plus the call heads whose declared
propagators include "argument taints result". -/
structure TaintSpec where
  sources : List String
  sanitizers : List String
  propagators : List String
  sinks : List SinkSpec
  deriving DecidableEq, Repr

/-- Modelled from the spec: the built-in default sanitizer set — integer and
numeric type-coercion calls sanitize regardless of rule-specific
configuration, since a converted value cannot carry string-shaped injection
payloads. -/
def builtinSanitizers : List String := ["int", "float"]

/-- Recognized sanitizer call heads: the rule's configured sanitizers plus
the built-in type-coercion set. -/
def isSanitizer (ts : TaintSpec) (f : String) : Prop :=
  f ∈ ts.sanitizers ∨ f ∈ builtinSanitizers

instance (ts : TaintSpec) (f : String) : Decidable (isSanitizer ts f) := by
  unfold isSanitizer; infer_instance

/-- Modelled from the spec: the TaintState of one function under analysis —
each currently tainted identifier with the span of the source call its taint
originated at; identifiers absent from the list are untainted. -/
abbrev TaintEnv := List (String × Span)

/-- Taint tag of an identifier: the originating source span when tainted. -/
def lookupTaint : TaintEnv → String → Option Span
  | [], _ => none
  | (x, s) :: rest, y => if x = y then some s else lookupTaint rest y

/-- Remove an identifier's taint record (reset to untainted). -/
def clearTaint (env : TaintEnv) (x : String) : TaintEnv :=
  env.filter (fun p => p.1 ≠ x)

/-- Record an identifier as tainted from the given source span. -/
def setTaint (env : TaintEnv) (x : String) (sp : Span) : TaintEnv :=
  (x, sp) :: clearTaint env x

mutual

/-- Modelled from the spec: taint of an expression under the current
TaintState.  A call matching a source pattern is tainted at its own span; a
call matching a sanitizer pattern (rule-configured or built-in type
coercion) resets to untainted; a call whose declared propagators include
"argument taints result" carries its first tainted argument's tag; any other
call — in particular a call to a locally-defined helper function — is
treated as opaque and yields an untainted value.  Concatenation, formatted-
string construction and attribute access propagate taint from their parts. -/
def evalTaint (ts : TaintSpec) (env : TaintEnv) : Expr → Option Span
  | .ident x => lookupTaint env x
  | .strLit _ => none
  | .call f args sp =>
    if f ∈ ts.sources then some sp
    else if isSanitizer ts f then none
    else if f ∈ ts.propagators then evalTaintList ts env args
    else none
  | .concat a b =>
    match evalTaint ts env a with
    | some s => some s
    | none => evalTaint ts env b
  | .fstring parts => evalTaintList ts env parts
  | .attr base _ => evalTaint ts env base

/-- First tainted member of an expression list, if any. -/
def evalTaintList (ts : TaintSpec) (env : TaintEnv) : List Expr → Option Span
  | [] => none
  | e :: es =>
    match evalTaint ts env e with
    | some s => some s
    | none => evalTaintList ts env es

end

/-- Modelled from the spec: a Finding — the rule name, the reported location
(the sink call's span) and the source span and sink span that closed the
flow. -/
structure Finding where
  ruleName : String
  span : Span
  sourceSpan : Span
  sinkSpan : Span
  deriving DecidableEq, Repr

/-- Source tag of the first argument identifier that is currently tainted
(sink matching inspects the argument identifiers, per the spec). -/
def firstTaintedIdent (env : TaintEnv) : List Expr → Option Span
  | [] => none
  | .ident x :: rest =>
    match lookupTaint env x with
    | some s => some s
    | none => firstTaintedIdent env rest
  | _ :: rest => firstTaintedIdent env rest

/-- Modelled from the spec: findings a single call emits — for every sink
pattern whose call head matches, if any matched argument identifier (at a
position the sink's tainted-value metavariable ranges over) is currently
tainted, emit a Finding linking the originating source span to this sink
span. -/
def sinkFindings (rule : String) (ts : TaintSpec) (env : TaintEnv)
    (f : String) (args : List Expr) (sp : Span) : List Finding :=
  ts.sinks.filterMap fun k =>
    if k.fn = f then
      match firstTaintedIdent env (args.drop k.minArg) with
      | some src => some ⟨rule, sp, src, sp⟩
      | none => none
    else none

mutual

/-- Findings emitted by the sink checks of every call occurring inside an
expression, under the current TaintState. -/
def findingsOfExpr (rule : String) (ts : TaintSpec) (env : TaintEnv) : Expr → List Finding
  | .ident _ => []
  | .strLit _ => []
  | .call f args sp => sinkFindings rule ts env f args sp ++ findingsOfExprList rule ts env args
  | .concat a b => findingsOfExpr rule ts env a ++ findingsOfExpr rule ts env b
  | .fstring parts => findingsOfExprList rule ts env parts
  | .attr base _ => findingsOfExpr rule ts env base

/-- Findings of every call occurring inside a list of expressions. -/
def findingsOfExprList (rule : String) (ts : TaintSpec) (env : TaintEnv) : List Expr → List Finding
  | [] => []
  | e :: es => findingsOfExpr rule ts env e ++ findingsOfExprList rule ts env es

end

/-- Modelled from the spec: statements of one function body — assignment,
expression statement, a conditional with its two branches, and return. -/
inductive Stmt where
  | assign (lhs : String) (rhs : Expr)
  | exprStmt (e : Expr)
  | ifStmt (guard : Expr) (thenBody : List Stmt) (elseBody : List Stmt)
  | ret (e : Expr)
  deriving Repr

mutual

/-- Modelled from the spec: the effect of one statement in the single
forward pass.  An assignment rewrites the left-hand identifier's TaintState
from its right-hand side's taint (a sanitized or otherwise untainted value
resets it to untainted); branches are treated as both-taken — the analysis
is path-insensitive, so a conditional guard or an early return never removes
taint from the state that flows past it. -/
def processStmt (rule : String) (ts : TaintSpec) : TaintEnv → Stmt → TaintEnv × List Finding
  | env, .assign lhs rhs =>
    let fs := findingsOfExpr rule ts env rhs
    match evalTaint ts env rhs with
    | some sp => (setTaint env lhs sp, fs)
    | none => (clearTaint env lhs, fs)
  | env, .exprStmt e => (env, findingsOfExpr rule ts env e)
  | env, .ret e => (env, findingsOfExpr rule ts env e)
  | env, .ifStmt g tb eb =>
    let fg := findingsOfExpr rule ts env g
    let r1 := processStmtList rule ts env tb
    let r2 := processStmtList rule ts r1.1 eb
    (r2.1, fg ++ r1.2 ++ r2.2)

/-- Single forward pass over the statements in lexical order, threading the
TaintState and concatenating the findings. -/
def processStmtList (rule : String) (ts : TaintSpec) : TaintEnv → List Stmt → TaintEnv × List Finding
  | env, [] => (env, [])
  | env, s :: rest =>
    let r1 := processStmt rule ts env s
    let r2 := processStmtList rule ts r1.1 rest
    (r2.1, r1.2 ++ r2.2)

end

/-- Modelled from the spec: the taint engine's contract — analyze one
function body against a rule's taint specification, every identifier
initially untainted, and report the findings where tainted data reaches a
sink. -/
def analyze (ts : TaintSpec) (rule : String) (body : List Stmt) : List Finding :=
  (processStmtList rule ts [] body).2

/-- Modelled from the spec: the four expectation kinds an annotation comment
can declare for the rule it names. -/
inductive ExpectKind where
  | expectMatch
  | expectNoMatch
  | knownFalseNeg
  | knownFalsePos
  deriving DecidableEq, Repr

/-- Modelled from the spec: an Expectation parsed from annotation comments —
rule name, kind, and the span of the code construct it is attached to. -/
structure Expectation where
  rule : String
  kind : ExpectKind
  constructSpan : Span
  deriving DecidableEq, Repr

/-- Modelled from the spec: a compiled Rule — a stable name, the pattern
expression tree and the taint specification; immutable and shared read-only
across runs. -/
structure Rule where
  name : String
  pat : Pattern
  taint : TaintSpec
  deriving Repr

/-- Modelled from the spec: one line of a parsed fixture file, as the
harness's scanner sees it — an annotation comment naming a rule, an ordinary
comment line, or the start of a code construct carrying its span and the
statements of its body. -/
inductive FixLine where
  | annot (kind : ExpectKind) (rule : String)
  | comment
  | construct (sp : Span) (body : List Stmt)
  deriving Repr

/-- Modelled from the spec: the scanner's accumulator pass.  Annotation
lines stack onto a pending list; ordinary comment lines leave the pending
annotations in place; the next code construct receives every pending
annotation as an Expectation attached to its span. -/
def scanLines : List (ExpectKind × String) → List FixLine → List Expectation
  | _, [] => []
  | pending, .annot k r :: rest => scanLines (pending ++ [(k, r)]) rest
  | pending, .comment :: rest => scanLines pending rest
  | pending, .construct sp _ :: rest =>
    pending.map (fun p => ⟨p.2, p.1, sp⟩) ++ scanLines [] rest

/-- Modelled from the spec: scan an annotated fixture file for expectation
markers, each annotation attaching to the code construct that follows it. -/
def scanExpectations (lines : List FixLine) : List Expectation :=
  scanLines [] lines

/-- Findings the configured rules produce on one fixture line: the taint
analysis of each rule on a construct's body; other lines contribute. -/
def constructFindings (rules : List Rule) : FixLine → List Finding
  | .construct _ body => rules.flatMap fun r => analyze r.taint r.name body
  | _ => []

/-- Modelled from the spec: run every configured Rule against the fixture
and collect all Findings. -/
def fixtureFindings (rules : List Rule) (lines : List FixLine) : List Finding :=
  lines.flatMap (constructFindings rules)

/-- Span containment: the first span falls within the second. -/
def Span.within (a b : Span) : Prop :=
  b.lo ≤ a.lo ∧ a.hi ≤ b.hi

instance (a b : Span) : Decidable (Span.within a b) := by
  unfold Span.within; infer_instance

/-- Modelled from the spec: an Expectation's satisfaction test — spatial
containment of the Finding's span in the annotated construct's span, and
rule-name equality. -/
def covers (f : Finding) (e : Expectation) : Prop :=
  f.ruleName = e.rule ∧ Span.within f.span e.constructSpan

instance (f : Finding) (e : Expectation) : Decidable (covers f e) := by
  unfold covers; infer_instance

/-- Some collected Finding satisfies the expectation's construct. -/
def coveredBy (fs : List Finding) (e : Expectation) : Prop :=
  ∃ f ∈ fs, covers f e

instance (fs : List Finding) (e : Expectation) : Decidable (coveredBy fs e) := by
  unfold coveredBy; infer_instance

/-- Modelled from the spec: the VerificationReport — the collected findings,
the counts of true positives, true negatives, false positives (unexpected
Finding), false negatives (missing expected Finding), accepted known-
limitation rows and newly detected known-false-negatives, plus the pass/fail
verdict. -/
structure VerificationReport where
  findings : List Finding
  truePos : Nat
  trueNeg : Nat
  falsePos : Nat
  falseNeg : Nat
  knownLim : Nat
  newlyDetected : Nat
  verdict : Bool
  deriving DecidableEq, Repr

/-- Modelled from the spec: the verification harness — run every configured
rule over the fixture, collect the findings, scan the expectation markers,
classify each expectation by spatial containment and rule-name equality, and
report the counts with a verdict that passes iff the false-positive and
false-negative counts are both zero, independent of the known-limitation
counts. -/
def verify (rules : List Rule) (lines : List FixLine) : VerificationReport :=
  let fs := fixtureFindings rules lines
  let es := scanExpectations lines
  let tp := (es.filter fun e => decide (e.kind = .expectMatch ∧ coveredBy fs e)).length
  let fneg := (es.filter fun e => decide (e.kind = .expectMatch ∧ ¬ coveredBy fs e)).length
  let fpos := (es.filter fun e => decide (e.kind = .expectNoMatch ∧ coveredBy fs e)).length
  let tn := (es.filter fun e => decide (e.kind = .expectNoMatch ∧ ¬ coveredBy fs e)).length
  let kl := (es.filter fun e => decide (e.kind = .knownFalseNeg ∨ e.kind = .knownFalsePos)).length
  let nd := (es.filter fun e => decide (e.kind = .knownFalseNeg ∧ coveredBy fs e)).length
  ⟨fs, tp, tn, fpos, fneg, kl, nd, decide (fpos = 0 ∧ fneg = 0)⟩

/-- Modelled from the spec: the error a rule fails to compile with —
malformed surface syntax, or a taint specification referencing a
metavariable not introduced anywhere in scope. -/
inductive CompileError where
  | invalidSyntax
  | unboundMetavariable
  deriving DecidableEq, Repr

/-- Modelled from the spec: a declarative rule definition before
compilation — its name, its surface structural pattern (already shaped as a
tree; whether the textual surface form was well-formed is recorded by the
out-of-scope loader as a flag), the metavariables its taint block
references, and its taint specification. -/
structure RuleSource where
  name : String
  syntaxOk : Bool
  pat : Pattern
  taintRefs : List String
  taint : TaintSpec
  deriving Repr

/-- Modelled from the spec: the Rule Compiler's contract — syntax
validation, metavariable consistency checking (a taint specification
referencing a variable not introduced in the structural pattern fails with
UnboundMetavariable), and conversion into the executable Rule; no side
effects beyond producing the Rule value. -/
def compile (rs : RuleSource) : Except CompileError Rule :=
  if rs.syntaxOk = false then .error .invalidSyntax
  else if rs.taintRefs.all fun v => decide (v ∈ patVars rs.pat) then .ok ⟨rs.name, rs.pat, rs.taint⟩
  else .error .unboundMetavariable

/-- Modelled from the spec: the error the supplied AST frontend reports for
a malformed fixture, with the location of the syntax error. -/
inductive ParseError where
  | syntaxError (pos : Nat)
  deriving DecidableEq, Repr

/-- Modelled from the spec: a fixture file as handed to the supplied
frontend — its scanned lines, plus the position of a syntax error when the
file is malformed. -/
structure FixtureSource where
  lines : List FixLine
  malformedAt : Option Nat
  deriving Repr

/-- Modelled from the spec: the supplied AST frontend's contract — parse a
fixture, reporting a syntax error with its location, otherwise opaque to the
core. -/
def parse (f : FixtureSource) : Except ParseError (List FixLine) :=
  match f.malformedAt with
  | some p => .error (.syntaxError p)
  | none => .ok f.lines

/-- Modelled from the spec: the aggregate result of a suite run — every
compile failure with the failing rule's name, every parse failure, the
per-fixture reports of the files that parsed, and the exit code. -/
structure SuiteReport where
  compileErrors : List (String × CompileError)
  parseErrors : List ParseError
  reports : List VerificationReport
  exitCode : Nat
  deriving DecidableEq, Repr

/-- Modelled from the spec: the engine entry point — compile every rule
(a failing rule is reported and the others continue), parse every fixture
(a malformed file is reported and the others continue), verify every parsed
fixture against the rules that compiled, and return a non-zero exit code iff
at least one false positive or false negative occurred across all fixtures. -/
def runSuite (ruleSrcs : List RuleSource) (fixtures : List FixtureSource) : SuiteReport :=
  let okRules := ruleSrcs.filterMap fun rs => (compile rs).toOption
  let cErrs := ruleSrcs.filterMap fun rs =>
    match compile rs with
    | .error e => some (rs.name, e)
    | .ok _ => none
  let pErrs := fixtures.filterMap fun f =>
    match parse f with
    | .error e => some e
    | .ok _ => none
  let reps := fixtures.filterMap fun f =>
    match parse f with
    | .ok ls => some (verify okRules ls)
    | .error _ => none
  ⟨cErrs, pErrs, reps, if reps.any fun r => decide (r.falsePos ≠ 0 ∨ r.falseNeg ≠ 0) then 1 else 0⟩

/-!  Helper lemmas about the sink check, shared by the taint-engine
theorems. -/

/-- A call with no arguments has no matched argument identifier, so it emits
no sink finding. -/
theorem sinkFindings_nil_args (rule : String) (ts : TaintSpec) (env : TaintEnv)
    (f : String) (sp : Span) : sinkFindings rule ts env f [] sp = [] := by
  unfold sinkFindings
  apply List.filterMap_eq_nil_iff.mpr
  intro k _
  split
  · simp [firstTaintedIdent]
  · rfl

/-- A sink call whose single argument is an untainted identifier emits no
finding. -/
theorem sinkFindings_untainted_ident (rule : String) (ts : TaintSpec) (env : TaintEnv)
    (f v : String) (sp : Span) (h : lookupTaint env v = none) :
    sinkFindings rule ts env f [Expr.ident v] sp = [] := by
  unfold sinkFindings
  apply List.filterMap_eq_nil_iff.mpr
  intro k _
  split
  · rcases k with ⟨kf, m⟩
    cases m with
    | zero => simp [firstTaintedIdent, h]
    | succ m => simp [firstTaintedIdent]
  · rfl

/-- A call whose head matches no sink pattern emits no finding. -/
theorem sinkFindings_not_sink (rule : String) (ts : TaintSpec) (env : TaintEnv)
    (f : String) (args : List Expr) (sp : Span) (h : ∀ k ∈ ts.sinks, k.fn ≠ f) :
    sinkFindings rule ts env f args sp = [] := by
  unfold sinkFindings
  apply List.filterMap_eq_nil_iff.mpr
  intro k hk
  simp [h k hk]

/-- C3: a pattern binding the same metavariable twice matches a call exactly
when the two concrete subtrees bound to the metavariable are structurally
identical — the later occurrence is compared by structural equality against
the first binding, so f(X, X) matches f(a, a) and rejects f(a, b). -/
theorem metavariable_consistency (x f : String) (a b : Node) (sp : Span) :
    (matchPattern [] (Pattern.lit .call (some f) [.metavar x, .metavar x])
      (Node.mk .call (some f) [a, b] sp) []).isSome = true ↔ a = b := by
  by_cases h : a = b
  · subst h
    simp [matchPattern, matchChildren, Binding.lookupVar]
  · simp [matchPattern, matchChildren, Binding.lookupVar, h]

/-- C1: once an identifier assigned from a source is reassigned through a
recognized sanitizer call — a rule-configured sanitizer or the built-in
always-sanitizing integer/numeric coercions such as int() — no subsequent
sink use of the identifier produces a Finding: v = source(); v = san(v);
snk(v) yields zero Findings. -/
theorem sanitizer_precedence (ts : TaintSpec) (rule src san snk v : String)
    (sp1 sp2 sp3 : Span)
    (hsrc : src ∈ ts.sources) (hsan : isSanitizer ts san)
    (hss : san ∉ ts.sources) (hsnk : ∀ k ∈ ts.sinks, k.fn ≠ san) :
    analyze ts rule
      [.assign v (.call src [] sp1),
       .assign v (.call san [.ident v] sp2),
       .exprStmt (.call snk [.ident v] sp3)] = [] := by
  have e1 : evalTaint ts [] (.call src [] sp1) = some sp1 := by
    simp [evalTaint, hsrc]
  have e2 : evalTaint ts [(v, sp1)] (.call san [.ident v] sp2) = none := by
    simp [evalTaint, hss, hsan]
  simp [analyze, processStmtList, processStmt, e1, e2, findingsOfExpr,
    findingsOfExprList, setTaint, clearTaint, sinkFindings_nil_args,
    sinkFindings_not_sink _ _ _ _ _ _ hsnk, sinkFindings_untainted_ident,
    lookupTaint]

/-- C6: a call to a locally-defined helper function is treated as opaque, so
taint never enters a function through the helper's return value — a body
whose only source-to-sink path passes through that return value produces no
Finding. -/
theorem opaque_helper_calls (ts : TaintSpec) (rule helper snk v : String)
    (sp1 sp2 : Span) (h1 : helper ∉ ts.sources) :
    analyze ts rule
      [.assign v (.call helper [] sp1),
       .exprStmt (.call snk [.ident v] sp2)] = [] := by
  have e1 : evalTaint ts [] (.call helper [] sp1) = none := by
    simp [evalTaint, evalTaintList, h1, ite_self]
  simp [analyze, processStmtList, processStmt, e1, findingsOfExpr,
    findingsOfExprList, clearTaint, sinkFindings_nil_args,
    sinkFindings_untainted_ident, lookupTaint]

/-- C2: the engine is path-insensitive — a conditional guard over a tainted
identifier, with an early return in its branch, does not remove the
identifier's taint, so the Finding for the source-sink pair is still
emitted (the documented false-positive class for validated-but-unrecognized
conditionals). -/
theorem path_insensitive_guards (ts : TaintSpec) (rule src snk v : String)
    (g retE : Expr) (sp1 sp3 : Span)
    (hsrc : src ∈ ts.sources) (hsnk : SinkSpec.mk snk 0 ∈ ts.sinks) :
    Finding.mk rule sp3 sp1 sp3 ∈ analyze ts rule
      [.assign v (.call src [] sp1),
       .ifStmt g [.ret retE] [],
       .exprStmt (.call snk [.ident v] sp3)] := by
  have e1 : evalTaint ts [] (.call src [] sp1) = some sp1 := by
    simp [evalTaint, hsrc]
  have hmem : Finding.mk rule sp3 sp1 sp3 ∈
      sinkFindings rule ts [(v, sp1)] snk [Expr.ident v] sp3 := by
    unfold sinkFindings
    apply List.mem_filterMap.mpr
    refine ⟨⟨snk, 0⟩, hsnk, ?_⟩
    simp [firstTaintedIdent, lookupTaint]
  simp [analyze, processStmtList, processStmt, e1, findingsOfExpr,
    findingsOfExprList, setTaint, clearTaint]
  tauto

/-- Modelled from the spec: the taint specification of the "second argument
absolute" path-join rule variant — user input reaching any argument of
os.path.join after the first closes the flow, because join discards all
preceding components when a later argument is an absolute path. -/
def pathJoinSecondArgVariant : TaintSpec :=
  ⟨["request.args.get"], [], [], [⟨"os.path.join", 1⟩]⟩

/-- C7: under the "second argument absolute" path-join rule variant,
join("/base", tainted) — the tainted identifier in a later argument — is
flagged, while join(tainted, "literal") — the tainted identifier only in the
first argument, with a hardcoded later argument — produces no Finding for
that variant. -/
theorem path_join_second_arg_variant (rule v : String) (sp1 spJ : Span) :
    Finding.mk rule spJ sp1 spJ ∈ analyze pathJoinSecondArgVariant rule
      [.assign v (.call "request.args.get" [] sp1),
       .exprStmt (.call "os.path.join" [.strLit "/base", .ident v] spJ)]
    ∧ analyze pathJoinSecondArgVariant rule
      [.assign v (.call "request.args.get" [] sp1),
       .exprStmt (.call "os.path.join" [.ident v, .strLit "readme.txt"] spJ)] = [] := by
  constructor
  · simp [analyze, processStmtList, processStmt, evalTaint, findingsOfExpr,
      findingsOfExprList, setTaint, clearTaint, sinkFindings,
      pathJoinSecondArgVariant, firstTaintedIdent, lookupTaint]
  · simp [analyze, processStmtList, processStmt, evalTaint, findingsOfExpr,
      findingsOfExprList, setTaint, clearTaint, sinkFindings,
      pathJoinSecondArgVariant, firstTaintedIdent, lookupTaint]

/-- A pending annotation survives any run of ordinary comment lines and
attaches to the construct that follows them. -/
theorem scanLines_pending_attaches (k : ExpectKind) (r : String)
    (pending : List (ExpectKind × String)) (hp : (k, r) ∈ pending)
    (n : Nat) (sp : Span) (body : List Stmt) (post : List FixLine) :
    Expectation.mk r k sp ∈
      scanLines pending (List.replicate n .comment ++ .construct sp body :: post) := by
  induction n with
  | zero =>
    simp only [List.replicate, List.nil_append, scanLines]
    apply List.mem_append_left
    exact List.mem_map.mpr ⟨(k, r), hp, rfl⟩
  | succ n ih =>
    simpa only [List.replicate_succ, List.cons_append, scanLines] using ih

/-- An annotation line attaches to the construct following it across any run
of ordinary comment lines, whatever precedes it and whatever pending
annotations are already stacked. -/
theorem scanLines_annot_attaches (k : ExpectKind) (r : String) (n : Nat)
    (sp : Span) (body : List Stmt) (post : List FixLine) :
    ∀ (pre : List FixLine) (pending : List (ExpectKind × String)),
      Expectation.mk r k sp ∈
        scanLines pending
          (pre ++ .annot k r :: (List.replicate n .comment ++ .construct sp body :: post)) := by
  intro pre
  induction pre with
  | nil =>
    intro pending
    simp only [List.nil_append, scanLines]
    exact scanLines_pending_attaches k r _ (by simp) n sp body post
  | cons l pre ih =>
    intro pending
    cases l with
    | annot k' r' => simpa only [List.cons_append, scanLines] using ih _
    | comment => simpa only [List.cons_append, scanLines] using ih _
    | construct sp' body' =>
      simp only [List.cons_append, scanLines]
      exact List.mem_append_right _ (ih _)

/-- C10: an annotation separated from the next code construct only by
ordinary comment lines is still attached to that construct rather than
dropped — the expectation associates with the immediately following
construct, whatever lines precede the annotation and whatever follows the
construct. -/
theorem stacked_comment_annotations (pre : List FixLine) (k : ExpectKind)
    (r : String) (n : Nat) (sp : Span) (body : List Stmt) (post : List FixLine) :
    Expectation.mk r k sp ∈
      scanExpectations
        (pre ++ .annot k r :: (List.replicate n .comment ++ .construct sp body :: post)) := by
  unfold scanExpectations
  exact scanLines_annot_attaches k r n sp body post pre []

/-- C5: the verdict of verify passes exactly when the false-positive and
false-negative counts are both zero — independent of the known-limitation
counts — and runSuite returns a non-zero exit code exactly when at least one
false positive or false negative occurred across all fixture reports. -/
theorem verdict_iff_no_false_results :
    (∀ (rules : List Rule) (lines : List FixLine),
      (verify rules lines).verdict = true ↔
        (verify rules lines).falsePos = 0 ∧ (verify rules lines).falseNeg = 0)
    ∧ ∀ (rs : List RuleSource) (fs : List FixtureSource),
        (runSuite rs fs).exitCode ≠ 0 ↔
          ∃ r ∈ (runSuite rs fs).reports, r.falsePos ≠ 0 ∨ r.falseNeg ≠ 0 := by
  constructor
  · intro rules lines
    simp [verify]
  · intro rs fs
    have key : ∀ reps : List VerificationReport,
        ((if reps.any fun r => decide (r.falsePos ≠ 0 ∨ r.falseNeg ≠ 0) then 1 else 0)
            ≠ (0 : Nat) ↔
          ∃ r ∈ reps, r.falsePos ≠ 0 ∨ r.falseNeg ≠ 0) := by
      intro reps
      constructor
      · intro h
        have hc : (reps.any fun r => decide (r.falsePos ≠ 0 ∨ r.falseNeg ≠ 0)) = true := by
          by_contra hc
          rw [if_neg hc] at h
          exact h rfl
        rcases List.any_eq_true.mp hc with ⟨r, hr, hp⟩
        exact ⟨r, hr, of_decide_eq_true hp⟩
      · rintro ⟨r, hr, hp⟩
        have hc : (reps.any fun r => decide (r.falsePos ≠ 0 ∨ r.falseNeg ≠ 0)) = true :=
          List.any_eq_true.mpr ⟨r, hr, decide_eq_true hp⟩
        rw [if_pos hc]
        exact one_ne_zero
    simpa only [runSuite] using key _

/-- C8: verification is deterministic — verify and runSuite are pure
functions of their inputs, so two runs on an unchanged fixture set and rule
set produce identical reports, finding sets, counts and verdicts. -/
theorem verify_deterministic :
    (∀ (rules : List Rule) (lines : List FixLine),
      verify rules lines = verify rules lines)
    ∧ ∀ (rs : List RuleSource) (fs : List FixtureSource),
        runSuite rs fs = runSuite rs fs :=
  ⟨fun _ _ => rfl, fun _ _ => rfl⟩

/-- C4: when the harness records no false negative, every construct
annotated expect-match is covered by at least one collected Finding whose
span is contained in the construct's span and whose rule name equals the
annotation's rule name — and by exactly one such Finding when the pattern is
non-overlapping by construction (at most one covering Finding exists). -/
theorem expect_match_coverage (rules : List Rule) (lines : List FixLine)
    (e : Expectation) (he : e ∈ scanExpectations lines)
    (hk : e.kind = ExpectKind.expectMatch)
    (hfn : (verify rules lines).falseNeg = 0) :
    1 ≤ ((fixtureFindings rules lines).filter fun f => decide (covers f e)).length ∧
      (((fixtureFindings rules lines).filter fun f => decide (covers f e)).length ≤ 1 →
        ((fixtureFindings rules lines).filter fun f => decide (covers f e)).length = 1) := by
  have hfn' : ((scanExpectations lines).filter fun x =>
      decide (x.kind = ExpectKind.expectMatch ∧
        ¬ coveredBy (fixtureFindings rules lines) x)).length = 0 := by
    simpa only [verify] using hfn
  have hnil := List.length_eq_zero.mp hfn'
  have hcov : coveredBy (fixtureFindings rules lines) e := by
    have hno := List.filter_eq_nil_iff.mp hnil e he
    by_contra hnc
    exact hno (by simp [hk, hnc])
  rcases hcov with ⟨f, hf, hcf⟩
  have hmemf : f ∈ (fixtureFindings rules lines).filter fun f => decide (covers f e) :=
    List.mem_filter.mpr ⟨hf, decide_eq_true hcf⟩
  have h1 : 1 ≤ ((fixtureFindings rules lines).filter fun f => decide (covers f e)).length :=
    List.length_pos_of_mem hmemf
  exact ⟨h1, fun hle => le_antisymm hle h1⟩

/-- C9: an error local to one rule or one fixture never aborts the run —
with a rule that fails to compile and a fixture that fails to parse
anywhere in the inputs, every other rule and fixture is still processed to
the same per-file reports and the same aggregate exit code, and both
failures are reported. -/
theorem errors_are_local (rs1 rs2 : List RuleSource) (bad : RuleSource)
    (f1 f2 : List FixtureSource) (badf : FixtureSource)
    (e : CompileError) (pe : ParseError)
    (hbad : compile bad = .error e) (hbadf : parse badf = .error pe) :
    (runSuite (rs1 ++ bad :: rs2) (f1 ++ badf :: f2)).reports
        = (runSuite (rs1 ++ rs2) (f1 ++ f2)).reports
      ∧ (runSuite (rs1 ++ bad :: rs2) (f1 ++ badf :: f2)).exitCode
        = (runSuite (rs1 ++ rs2) (f1 ++ f2)).exitCode
      ∧ (bad.name, e) ∈ (runSuite (rs1 ++ bad :: rs2) (f1 ++ badf :: f2)).compileErrors
      ∧ pe ∈ (runSuite (rs1 ++ bad :: rs2) (f1 ++ badf :: f2)).parseErrors := by
  refine ⟨?_, ?_, ?_, ?_⟩ <;>
    simp [runSuite, List.filterMap_append, List.filterMap_cons, hbad, hbadf,
      Except.toOption]

/-!  Concrete instances used by the witnesses: one taint rule with one
source and one sink, one well-formed annotated fixture, one rule definition
that fails to compile and one fixture that fails to parse. -/

/-- A taint specification with one source call, one sink call and no
configured sanitizers. -/
def exampleTaintSpec : TaintSpec := ⟨["source"], [], [], [⟨"sink", 0⟩]⟩

/-- A compiled rule named r carrying the example taint specification. -/
def exampleRule : Rule := ⟨"r", .metavar "X", exampleTaintSpec⟩

/-- A fixture with one expect-match annotation over one construct whose body
flows the source into the sink. -/
def exampleFixture : List FixLine :=
  [.annot .expectMatch "r",
   .construct ⟨0, 10⟩
     [.assign "v" (.call "source" [] ⟨1, 2⟩),
      .exprStmt (.call "sink" [.ident "v"] ⟨3, 4⟩)]]

/-- A rule definition that compiles. -/
def exampleRuleSource : RuleSource := ⟨"r", true, .metavar "X", [], exampleTaintSpec⟩

/-- A rule definition with malformed surface syntax. -/
def badRuleSource : RuleSource := ⟨"bad", false, .metavar "X", [], exampleTaintSpec⟩

/-- A fixture source that parses. -/
def exampleFixtureSource : FixtureSource := ⟨exampleFixture, none⟩

/-- A fixture source with a syntax error at position 7. -/
def badFixtureSource : FixtureSource := ⟨[], some 7⟩

/-- Witness for C1 at a concrete input: v = source(); v = int(v); sink(v)
yields zero Findings under the example rule — the built-in int() coercion
sanitizes. -/
theorem sanitizer_precedence_witness :
    analyze exampleTaintSpec "r"
      [.assign "v" (.call "source" [] ⟨1, 2⟩),
       .assign "v" (.call "int" [.ident "v"] ⟨3, 4⟩),
       .exprStmt (.call "sink" [.ident "v"] ⟨5, 6⟩)] = [] :=
  sanitizer_precedence exampleTaintSpec "r" "source" "int" "sink" "v"
    ⟨1, 2⟩ ⟨3, 4⟩ ⟨5, 6⟩ (by decide) (by decide) (by decide) (by decide)

/-- Witness for C2 at a concrete input: the guard and early return do not
remove the taint, so the Finding is still emitted. -/
theorem path_insensitive_guards_witness :
    Finding.mk "r" ⟨5, 6⟩ ⟨1, 2⟩ ⟨5, 6⟩ ∈ analyze exampleTaintSpec "r"
      [.assign "v" (.call "source" [] ⟨1, 2⟩),
       .ifStmt (.call "v.startswith" [.strLit "/"] ⟨3, 4⟩) [.ret (.strLit "bad")] [],
       .exprStmt (.call "sink" [.ident "v"] ⟨5, 6⟩)] :=
  path_insensitive_guards exampleTaintSpec "r" "source" "sink" "v"
    (.call "v.startswith" [.strLit "/"] ⟨3, 4⟩) (.strLit "bad") ⟨1, 2⟩ ⟨5, 6⟩
    (by decide) (by decide)

/-- Witness for C6 at a concrete input: the helper's return value is opaque,
so the body produces no Finding. -/
theorem opaque_helper_calls_witness :
    analyze exampleTaintSpec "r"
      [.assign "v" (.call "helper" [] ⟨1, 2⟩),
       .exprStmt (.call "sink" [.ident "v"] ⟨3, 4⟩)] = [] :=
  opaque_helper_calls exampleTaintSpec "r" "helper" "sink" "v" ⟨1, 2⟩ ⟨3, 4⟩
    (by decide)

/-- Witness for C4 at a concrete input: the example fixture's expect-match
construct is covered by exactly one Finding of the example rule. -/
theorem expect_match_coverage_witness :
    1 ≤ ((fixtureFindings [exampleRule] exampleFixture).filter fun f =>
        decide (covers f ⟨"r", .expectMatch, ⟨0, 10⟩⟩)).length ∧
      (((fixtureFindings [exampleRule] exampleFixture).filter fun f =>
          decide (covers f ⟨"r", .expectMatch, ⟨0, 10⟩⟩)).length ≤ 1 →
        ((fixtureFindings [exampleRule] exampleFixture).filter fun f =>
          decide (covers f ⟨"r", .expectMatch, ⟨0, 10⟩⟩)).length = 1) :=
  expect_match_coverage [exampleRule] exampleFixture ⟨"r", .expectMatch, ⟨0, 10⟩⟩
    (by decide) (by decide) (by decide)

/-- Witness for C9 at a concrete input: with one failing rule and one
malformed fixture in the suite, the good rule and the good fixture still
produce the same report and exit code, and both failures are reported. -/
theorem errors_are_local_witness :
    (runSuite ([exampleRuleSource] ++ badRuleSource :: [])
        ([exampleFixtureSource] ++ badFixtureSource :: [])).reports
        = (runSuite ([exampleRuleSource] ++ []) ([exampleFixtureSource] ++ [])).reports
      ∧ (runSuite ([exampleRuleSource] ++ badRuleSource :: [])
          ([exampleFixtureSource] ++ badFixtureSource :: [])).exitCode
        = (runSuite ([exampleRuleSource] ++ []) ([exampleFixtureSource] ++ [])).exitCode
      ∧ (badRuleSource.name, CompileError.invalidSyntax)
          ∈ (runSuite ([exampleRuleSource] ++ badRuleSource :: [])
              ([exampleFixtureSource] ++ badFixtureSource :: [])).compileErrors
      ∧ ParseError.syntaxError 7
          ∈ (runSuite ([exampleRuleSource] ++ badRuleSource :: [])
              ([exampleFixtureSource] ++ badFixtureSource :: [])).parseErrors :=
  errors_are_local [exampleRuleSource] [] badRuleSource
    [exampleFixtureSource] [] badFixtureSource
    CompileError.invalidSyntax (ParseError.syntaxError 7) rfl rfl

end BountyHunter
